import Mathlib

/-! Shallow embedding of the route-discovery and quoting engine of the
Pearl TypeScript SDK (src/core/QuoterManager.ts together with the bin-price
helpers of the utility module), and theorems checking the specification
claims about it.

Numeric convention.  The TypeScript code stores monetary amounts as decimal
integer strings and price impacts as decimal strings, converting with
parseInt and parseFloat before any arithmetic.  In the value-level model
below an integer-string field is represented by its integer value (Int) and
a price impact by a rational value (Rat); JavaScript number arithmetic is
modelled by exact rational arithmetic.  A separate string-level model of
the gateway-response parser keeps the raw strings, because defaulting of
absent or malformed positions is only visible at the string level. -/

/-- Tag for SwapRoute.routeType: the source uses the string literals
"direct" and "multi-hop". -/
inductive RouteType where
  | direct : RouteType
  | multiHop : RouteType
deriving DecidableEq, Repr

/-- RouteHop from src/types (value-level): one token-to-token exchange.
Amount fields are the integer values of the source's integer strings. -/
structure RouteHop where
  poolId : String
  tokenIn : String
  tokenOut : String
  binStep : Int
  expectedAmountIn : Int
  expectedAmountOut : Int
  expectedFee : Int
  priceImpact : Rat
deriving DecidableEq, Repr

/-- SwapRoute from src/types (value-level). -/
structure SwapRoute where
  hops : List RouteHop
  totalFee : Int
  estimatedGas : Int
  priceImpact : Rat
  routeType : RouteType
deriving DecidableEq, Repr

/-- QuoteResult from src/types (value-level).  slippageTolerance is a
number of basis points. -/
structure QuoteResult where
  amountOut : Int
  amountIn : Int
  priceImpact : Rat
  feeAmount : Int
  gasEstimate : Int
  poolId : String
  route : SwapRoute
  isValid : Bool
  slippageTolerance : Int
deriving DecidableEq, Repr

/-- QuoteParams from src/types (value-level): amountIn is the integer
value of the request's amount string. -/
structure QuoteParams where
  tokenIn : String
  tokenOut : String
  amountIn : Int
deriving DecidableEq, Repr

/-- MultiRouteQuote from QuoterManager.ts. -/
structure MultiRouteQuote where
  directRoute : Option QuoteResult
  singleHopRoutes : List QuoteResult
  multiHopRoutes : List QuoteResult
  bestRoute : QuoteResult
  alternativeRoutes : List QuoteResult
deriving DecidableEq, Repr

/-- createEmptyQuote (QuoterManager.ts lines 516-534): the canonical
invalid quote with all amounts zero. -/
def createEmptyQuote : QuoteResult :=
  { amountOut := 0
    amountIn := 0
    priceImpact := 0
    feeAmount := 0
    gasEstimate := 0
    poolId := ""
    route :=
      { hops := []
        totalFee := 0
        estimatedGas := 0
        priceImpact := 0
        routeType := RouteType.direct }
    isValid := false
    slippageTolerance := 50 }

/-- combineHops (QuoterManager.ts lines 248-282): combine two hop quotes
into one multi-hop quote.  The source parses the integer strings with
parseInt, the price impacts with parseFloat, adds them and stringifies the
sums; in the value-level model this is plain addition.  The intermediate
token argument is unused in the source body as well. -/
def combineHops (originalParams : QuoteParams) (firstHop secondHop : QuoteResult)
    (_intermediate : String) : QuoteResult :=
  let totalFee := firstHop.feeAmount + secondHop.feeAmount
  let totalPriceImpact := firstHop.priceImpact + secondHop.priceImpact
  let totalGas := firstHop.gasEstimate + secondHop.gasEstimate
  let combinedRoute : SwapRoute :=
    { hops := firstHop.route.hops ++ secondHop.route.hops
      totalFee := totalFee
      estimatedGas := totalGas
      priceImpact := totalPriceImpact
      routeType := RouteType.multiHop }
  { amountOut := secondHop.amountOut
    amountIn := originalParams.amountIn
    priceImpact := totalPriceImpact
    feeAmount := totalFee
    gasEstimate := totalGas
    poolId := ""
    route := combinedRoute
    isValid := true
    slippageTolerance := max firstHop.slippageTolerance secondHop.slippageTolerance }

/-- calculateRouteScore (QuoterManager.ts lines 397-409): score a quote as
amountOut minus (fees + gas * 0.001) minus priceImpact * 1000, with the
JavaScript float literals read as exact rationals. -/
def calculateRouteScore (quote : QuoteResult) : Rat :=
  let amountOut : Rat := quote.amountOut
  let fees : Rat := quote.feeAmount
  let gas : Rat := quote.gasEstimate
  let priceImpact : Rat := quote.priceImpact
  let outputScore := amountOut
  let costScore := fees + gas * (1 / 1000)
  let impactPenalty := priceImpact * 1000
  outputScore - costScore - impactPenalty

/-- selectBestRoute (QuoterManager.ts lines 375-392): concatenate the
candidate lists, keep the valid quotes, and reduce with the strict
comparison currentScore > bestScore (so the earlier element wins ties);
on an empty valid list return the empty quote.  JavaScript reduce with no
initial value starts from the first element. -/
def selectBestRoute (multiRoute : MultiRouteQuote) : QuoteResult :=
  let allRoutes :=
    (multiRoute.directRoute.toList ++ multiRoute.singleHopRoutes ++
      multiRoute.multiHopRoutes).filter (fun route => route.isValid)
  match allRoutes with
  | [] => createEmptyQuote
  | b :: rest =>
    rest.foldl
      (fun best current =>
        if calculateRouteScore best < calculateRouteScore current then current else best)
      b

/-- calculateMinimumOutput (QuoterManager.ts lines 595-599):
floor(amountOut * (10000 - slippageBps) / 10000), with the JavaScript
float arithmetic modelled exactly over the rationals. -/
def calculateMinimumOutput (quote : QuoteResult) (slippageBps : Int) : Int :=
  Int.floor ((quote.amountOut : Rat) * ((10000 - (slippageBps : Rat)) / 10000))

/-- SlippageConfig from src/types. -/
structure SlippageConfig where
  tolerance : Int
  autoSlippage : Bool
  maxSlippage : Int
deriving DecidableEq, Repr

/-- calculateOptimalSlippage (QuoterManager.ts lines 324-340): base 50 bps,
raised to min(50 + priceImpact * 10, 500) when the impact exceeds 1, and
rounded with Math.round (half up, as Lean's round). -/
def calculateOptimalSlippage (quote : QuoteResult) : SlippageConfig :=
  let priceImpact := quote.priceImpact
  let baseSlippage : Rat := 50
  let tolerance :=
    if 1 < priceImpact then min (baseSlippage + priceImpact * 10) 500 else baseSlippage
  { tolerance := round tolerance
    autoSlippage := true
    maxSlippage := 1000 }

/-- enhanceQuote (QuoterManager.ts lines 485-501): raise the slippage
tolerance to the maximum of the requested tolerance and the computed
optimal one.  The gas-estimate branch of the source is guarded by the
JavaScript truthiness test !enhanced.gasEstimate, which is false for every
gas-estimate string the resolver produces (they are all non-empty), so the
branch never fires and is omitted from the model. -/
def enhanceQuote (quote : QuoteResult) (slippageTolerance : Int)
    (_includeGasEstimate : Bool) : QuoteResult :=
  { quote with
    slippageTolerance := max slippageTolerance (calculateOptimalSlippage quote).tolerance }

/-- Cache entry from QuoterManager.ts line 38: a quote together with the
Date.now() timestamp (milliseconds) at which it was stored. -/
structure CacheEntry where
  quote : QuoteResult
  timestamp : Int
deriving DecidableEq, Repr

/-- The quote cache: a JavaScript Map from the cache-key string to an
entry, modelled as an association list in insertion order. -/
abbrev QuoteCache : Type := List (String × CacheEntry)

/-- Lookup in the JavaScript Map: the binding for the key, if any. -/
def mapGet : QuoteCache → String → Option CacheEntry
  | [], _ => none
  | kv :: rest, key => if kv.1 = key then some kv.2 else mapGet rest key

/-- Map.set semantics: update the existing binding in place, or append a
new binding at the end. -/
def mapSet : QuoteCache → String → CacheEntry → QuoteCache
  | [], key, entry => [(key, entry)]
  | kv :: rest, key, entry =>
    if kv.1 = key then (key, entry) :: rest else kv :: mapSet rest key entry

/-- CACHE_TTL (QuoterManager.ts line 39): 10 seconds in milliseconds. -/
def CACHE_TTL : Int := 10000

/-- getCacheKey (QuoterManager.ts lines 541-543). -/
def getCacheKey (params : QuoteParams) : String :=
  params.tokenIn ++ "-" ++ params.tokenOut ++ "-" ++ toString params.amountIn

/-- getCachedQuote (QuoterManager.ts lines 548-554): return the stored
quote when an entry exists and is younger than the TTL, otherwise null.
Date.now() is passed in explicitly as now. -/
def getCachedQuote (cache : QuoteCache) (key : String) (now : Int) : Option QuoteResult :=
  match mapGet cache key with
  | some cached => if now - cached.timestamp < CACHE_TTL then some cached.quote else none
  | none => none

/-- cacheQuote (QuoterManager.ts lines 559-564): unconditionally store the
quote under the key with a fresh timestamp. -/
def cacheQuote (cache : QuoteCache) (key : String) (quote : QuoteResult)
    (now : Int) : QuoteCache :=
  mapSet cache key { quote := quote, timestamp := now }

/-- Transport failure raised at the ledger-gateway boundary (a rejected
devInspectTransactionBlock call in the source). -/
inductive TransportError where
  | transportFailure : TransportError
deriving DecidableEq, Repr

/-- Value-level view of the positional return values of a gateway response
(result.results[0].returnValues in the source): four optional positions
holding amountOut, priceImpact, feeAmount and gasEstimate.  A position is
none when the source expression returnValues[i]?.[0] yields undefined or a
falsy value. -/
structure RawVals where
  amountOut : Option Int
  priceImpact : Option Rat
  feeAmount : Option Int
  gasEstimate : Option Int
deriving DecidableEq, Repr

/-- The ledger gateway consumed by the quoter: a deterministic pricing
query taking (tokenIn, tokenOut, amountIn) and returning either a raw
response (none when the results/returnValues chain is absent) or a
transport error. -/
def Gateway : Type := String → String → Int → Except TransportError (Option RawVals)

/-- parseContractQuoteResult (QuoterManager.ts lines 427-480), value-level
model: when the returnValues chain is present, extract the four positions
with defaults 0 / 0 / 0 / 150000, build the one-hop direct route, and mark
the quote valid exactly when amountOut is positive; when the chain is
absent, return the empty quote.  (The string-level model below keeps the
raw strings; this value-level form is what the routing pipeline sees.) -/
def parseContractQuoteResultV (result : Option RawVals)
    (tokenIn tokenOut : String) (amountIn : Int) : QuoteResult :=
  match result with
  | none => createEmptyQuote
  | some returnValues =>
    let amountOut := returnValues.amountOut.getD 0
    let priceImpact := returnValues.priceImpact.getD 0
    let feeAmount := returnValues.feeAmount.getD 0
    let gasEstimate := returnValues.gasEstimate.getD 150000
    let route : SwapRoute :=
      { hops :=
          [{ poolId := ""
             tokenIn := tokenIn
             tokenOut := tokenOut
             binStep := 25
             expectedAmountIn := amountIn
             expectedAmountOut := amountOut
             expectedFee := feeAmount
             priceImpact := priceImpact }]
        totalFee := feeAmount
        estimatedGas := gasEstimate
        priceImpact := priceImpact
        routeType := RouteType.direct }
    { amountOut := amountOut
      amountIn := amountIn
      priceImpact := priceImpact
      feeAmount := feeAmount
      gasEstimate := gasEstimate
      poolId := ""
      route := route
      isValid := decide (0 < amountOut)
      slippageTolerance := 50 }

/-- getContractQuote (QuoterManager.ts lines 95-124): query the gateway
and parse; a gateway rejection is re-raised (the catch block wraps and
rethrows). -/
def getContractQuote (gateway : Gateway) (tokenIn tokenOut : String)
    (amountIn : Int) : Except TransportError QuoteResult :=
  match gateway tokenIn tokenOut amountIn with
  | Except.error e => Except.error e
  | Except.ok result =>
    Except.ok (parseContractQuoteResultV result tokenIn tokenOut amountIn)

/-- Descending insertion by amountOut: place the quote before the first
strictly smaller element.  Models the sort comparator
(a, b) => parseInt(b.amountOut) - parseInt(a.amountOut). -/
def insertDescByAmountOut (q : QuoteResult) : List QuoteResult → List QuoteResult
  | [] => [q]
  | x :: xs =>
    if x.amountOut < q.amountOut then q :: x :: xs else x :: insertDescByAmountOut q xs

/-- Sort a quote list descending by amountOut. -/
def sortDescByAmountOut (l : List QuoteResult) : List QuoteResult :=
  l.foldr insertDescByAmountOut []

/-- One iteration of the intermediate-token loop of getSingleHopQuotes
(QuoterManager.ts lines 200-240): skip the intermediate when it equals an
endpoint, when either hop's gateway call fails (the catch block), or when
either hop is invalid or has zero output; otherwise append the combined
two-hop quote. -/
def singleHopStep (gateway : Gateway) (params : QuoteParams)
    (routes : List QuoteResult) (intermediate : String) : List QuoteResult :=
  if intermediate = params.tokenIn ∨ intermediate = params.tokenOut then routes
  else
    match getContractQuote gateway params.tokenIn intermediate params.amountIn with
    | Except.error _ => routes
    | Except.ok firstHopQuote =>
      if firstHopQuote.isValid = false ∨ firstHopQuote.amountOut = 0 then routes
      else
        match getContractQuote gateway intermediate params.tokenOut firstHopQuote.amountOut with
        | Except.error _ => routes
        | Except.ok secondHopQuote =>
          if secondHopQuote.isValid = false ∨ secondHopQuote.amountOut = 0 then routes
          else routes ++ [combineHops params firstHopQuote secondHopQuote intermediate]

/-- getSingleHopQuotes (QuoterManager.ts lines 194-243): evaluate each
candidate intermediate token independently, collecting the combined
two-hop quotes, and return them sorted descending by amountOut.  The
source fetches the intermediate list from getCommonIntermediateTokens (a
constant list built from the package id); the model takes it as an
argument. -/
def getSingleHopQuotes (gateway : Gateway) (params : QuoteParams)
    (intermediateTokens : List String) : List QuoteResult :=
  sortDescByAmountOut (intermediateTokens.foldl (singleHopStep gateway params) [])

/-- getMultiRouteQuotes (QuoterManager.ts lines 129-187): try the direct
route first (a failed or invalid direct quote is dropped, the catch block
only logs), add the single-hop-through-intermediate quotes when maxHops
allows two hops, and select the best of all collected routes.  The
alternativeRoutes filter uses JavaScript reference inequality against the
selected object; structural inequality is the closest value-level
rendering and no claim depends on this field.  All route failures are
absorbed, so the Except value is always ok; the type mirrors the source's
rethrowing catch block. -/
def getMultiRouteQuotes (gateway : Gateway) (params : QuoteParams)
    (maxHops : Int) (intermediateTokens : List String) :
    Except TransportError MultiRouteQuote :=
  let base : MultiRouteQuote :=
    { directRoute := none
      singleHopRoutes := []
      multiHopRoutes := []
      bestRoute := createEmptyQuote
      alternativeRoutes := [] }
  let results :=
    match getContractQuote gateway params.tokenIn params.tokenOut params.amountIn with
    | Except.error _ => base
    | Except.ok directQuote =>
      if directQuote.isValid then
        { base with directRoute := some directQuote, singleHopRoutes := [directQuote] }
      else base
  let results :=
    if 2 ≤ maxHops then
      { results with
        singleHopRoutes :=
          results.singleHopRoutes ++ getSingleHopQuotes gateway params intermediateTokens }
    else results
  let allRoutes := results.singleHopRoutes ++ results.multiHopRoutes
  let results :=
    if allRoutes.isEmpty then results
    else
      let best := selectBestRoute
        { directRoute := none
          singleHopRoutes := allRoutes
          multiHopRoutes := []
          bestRoute := createEmptyQuote
          alternativeRoutes := [] }
      { results with
        bestRoute := best
        alternativeRoutes := sortDescByAmountOut (allRoutes.filter (fun route => route ≠ best)) }
  Except.ok results

/-- getBestQuote (QuoterManager.ts lines 52-90): return the cached quote
on a hit; on a miss enumerate routes, select the best, enhance it, cache
the result under the request key and return it together with the updated
cache.  Date.now() is the explicit now argument; the option defaults
(maxHops 3, slippageTolerance 50, includeGasEstimate true) are applied by
the caller. -/
def getBestQuote (gateway : Gateway) (params : QuoteParams) (maxHops : Int)
    (slippageTolerance : Int) (includeGasEstimate : Bool)
    (intermediateTokens : List String) (cache : QuoteCache) (now : Int) :
    Except TransportError (QuoteResult × QuoteCache) :=
  let cacheKey := getCacheKey params
  match getCachedQuote cache cacheKey now with
  | some cached => Except.ok (cached, cache)
  | none =>
    match getMultiRouteQuotes gateway params maxHops intermediateTokens with
    | Except.error e => Except.error e
    | Except.ok multiRouteQuote =>
      let bestQuote := selectBestRoute multiRouteQuote
      let enhancedQuote := enhanceQuote bestQuote slippageTolerance includeGasEstimate
      Except.ok (enhancedQuote, cacheQuote cache cacheKey enhancedQuote now)

/-- calculateBinPrice (utility module, source lines 680-685): the price
(1 + binStep/10000)^binId scaled by 2^64.  The source computes with
JavaScript doubles and stringifies the result; the model gives the exact
rational value of the same formula.  The body is a single expression with
no validation and no throw. -/
def calculateBinPrice (binId : Int) (binStep : Int) : Rat :=
  let base : Rat := 1 + (binStep : Rat) / 10000
  let price := base ^ binId
  price * 2 ^ 64

/-! String-level model of the gateway-response parser.  The positional
return values arrive as raw strings; defaulting with the JavaScript ||
operator and the parseInt-based validity check are only visible at this
level, so parseContractQuoteResult is modelled a second time over strings,
keeping the source's name. -/

/-- Accumulate the numeric value of the leading decimal digits of a
character list; none when the list does not start with a digit and nothing
has been accumulated yet. -/
def leadingDigitsVal : List Char → Option Nat → Option Nat
  | [], acc => acc
  | c :: cs, acc =>
    if c.isDigit then leadingDigitsVal cs (some (acc.getD 0 * 10 + (c.toNat - 48)))
    else acc

/-- JavaScript parseInt with radix 10 on a trimmed decimal string: an
optional sign followed by the longest digit prefix; none models NaN (no
digits).  Leading whitespace and the hexadecimal auto-radix of parseInt
are not exercised by any value in this development and are omitted. -/
def jsParseInt (s : String) : Option Int :=
  match s.toList with
  | [] => none
  | c :: rest =>
    if c = '-' then (leadingDigitsVal rest none).map (fun n => -(n : Int))
    else if c = '+' then (leadingDigitsVal rest none).map (fun n => (n : Int))
    else (leadingDigitsVal (c :: rest) none).map (fun n => (n : Int))

/-- JavaScript expression (v || d) for an optionally-present string v: the
default d is used when v is undefined or falsy (the empty string). -/
def jsOrDefault (v : Option String) (d : String) : String :=
  match v with
  | none => d
  | some s => if s = "" then d else s

/-- RouteHop with the raw string fields of the TypeScript interface. -/
structure RouteHopS where
  poolId : String
  tokenIn : String
  tokenOut : String
  binStep : Int
  expectedAmountIn : String
  expectedAmountOut : String
  expectedFee : String
  priceImpact : String
deriving DecidableEq, Repr

/-- SwapRoute with raw string fields. -/
structure SwapRouteS where
  hops : List RouteHopS
  totalFee : String
  estimatedGas : String
  priceImpact : String
  routeType : RouteType
deriving DecidableEq, Repr

/-- QuoteResult with raw string fields. -/
structure QuoteResultS where
  amountOut : String
  amountIn : String
  priceImpact : String
  feeAmount : String
  gasEstimate : String
  poolId : String
  route : SwapRouteS
  isValid : Bool
  slippageTolerance : Int
deriving DecidableEq, Repr

/-- createEmptyQuote at the string level: the canonical invalid quote with
every monetary amount the string zero. -/
def createEmptyQuoteS : QuoteResultS :=
  { amountOut := "0"
    amountIn := "0"
    priceImpact := "0"
    feeAmount := "0"
    gasEstimate := "0"
    poolId := ""
    route :=
      { hops := []
        totalFee := "0"
        estimatedGas := "0"
        priceImpact := "0"
        routeType := RouteType.direct }
    isValid := false
    slippageTolerance := 50 }

/-- parseContractQuoteResult (QuoterManager.ts lines 427-480) over the raw
response.  The response is none when the result.results[0].returnValues
chain is absent, otherwise the list of positional entries, each itself a
list whose head is the returned value (returnValues[i]?.[0]).  Position i
is read with (returnValues[i]?.[0] || default); validity is
parseInt(amountOut) > 0, false when parseInt yields NaN.  The body never
raises: every input is mapped to a QuoteResultS, the absent-chain case and
the catch block both yielding the empty quote. -/
def parseContractQuoteResult (result : Option (List (List String)))
    (tokenIn tokenOut amountIn : String) : QuoteResultS :=
  match result with
  | none => createEmptyQuoteS
  | some returnValues =>
    let amountOut := jsOrDefault ((returnValues.get? 0).bind List.head?) "0"
    let priceImpact := jsOrDefault ((returnValues.get? 1).bind List.head?) "0"
    let feeAmount := jsOrDefault ((returnValues.get? 2).bind List.head?) "0"
    let gasEstimate := jsOrDefault ((returnValues.get? 3).bind List.head?) "150000"
    let route : SwapRouteS :=
      { hops :=
          [{ poolId := ""
             tokenIn := tokenIn
             tokenOut := tokenOut
             binStep := 25
             expectedAmountIn := amountIn
             expectedAmountOut := amountOut
             expectedFee := feeAmount
             priceImpact := priceImpact }]
        totalFee := feeAmount
        estimatedGas := gasEstimate
        priceImpact := priceImpact
        routeType := RouteType.direct }
    { amountOut := amountOut
      amountIn := amountIn
      priceImpact := priceImpact
      feeAmount := feeAmount
      gasEstimate := gasEstimate
      poolId := ""
      route := route
      isValid := match jsParseInt amountOut with
        | some n => decide (0 < n)
        | none => false
      slippageTolerance := 50 }

/-- The reduce step of selectBestRoute factored out: fold the strict
better-score comparison over the remaining candidates, starting from the
first.  Definitionally equal to the fold inside selectBestRoute. -/
def pickBestQuote (b : QuoteResult) (rest : List QuoteResult) : QuoteResult :=
  rest.foldl
    (fun best current =>
      if calculateRouteScore best < calculateRouteScore current then current else best)
    b

/-- A gateway whose every call fails with a transport error (an
unreachable ledger). -/
def failingGateway : Gateway := fun _ _ _ =>
  Except.error TransportError.transportFailure

/-- A demo gateway for concrete witnesses: quotes out of token A return
amount 90 with fee 1, all others return amount 80 with fee 1, matching the
spec's multi-hop assembly scenario. -/
def demoGateway : Gateway := fun tokenIn _tokenOut _amountIn =>
  if tokenIn = "A" then Except.ok (some ⟨some 90, some 0, some 1, some 10⟩)
  else Except.ok (some ⟨some 80, some 0, some 1, some 20⟩)

/-- Demo request: swap 100 units of A for B. -/
def demoParams : QuoteParams := { tokenIn := "A", tokenOut := "B", amountIn := 100 }

/-- Demo first hop A -> X: 100 in, 90 out, fee 1. -/
def demoHopAX : QuoteResult :=
  parseContractQuoteResultV (some ⟨some 90, some 0, some 1, some 10⟩) "A" "X" 100

/-- Demo second hop X -> B: 90 in, 80 out, fee 1. -/
def demoHopXB : QuoteResult :=
  parseContractQuoteResultV (some ⟨some 80, some 0, some 1, some 20⟩) "X" "B" 90

/-- A quote with output amount 1, used to exhibit the floor collapse of
calculateMinimumOutput on small amounts. -/
def oneUnitQuote : QuoteResult := { createEmptyQuote with amountOut := 1 }

/-- A demo candidate set mixing an invalid quote with the two demo hops;
the A -> X quote scores highest. -/
def demoMultiRoute : MultiRouteQuote :=
  { directRoute := none
    singleHopRoutes := [createEmptyQuote, demoHopAX, demoHopXB]
    multiHopRoutes := []
    bestRoute := createEmptyQuote
    alternativeRoutes := [] }

/-- A demo candidate set with no valid quote at all. -/
def demoInvalidMultiRoute : MultiRouteQuote :=
  { directRoute := none
    singleHopRoutes := [createEmptyQuote]
    multiHopRoutes := []
    bestRoute := createEmptyQuote
    alternativeRoutes := [] }

/-- The quote getBestQuote produces when every route fails: the empty
invalid quote run through enhanceQuote with the default option values. -/
def emptyEnhanced : QuoteResult := enhanceQuote createEmptyQuote 50 true

/-- The cache produced by a fresh getBestQuote call at time 0 on
demoParams when every route fails. -/
def demoFailCache : QuoteCache :=
  cacheQuote [] (getCacheKey demoParams) emptyEnhanced 0

/-! Helper lemmas shared by the claim theorems. -/

/-- Setting a key makes it the binding that lookup finds. -/
theorem mapGet_mapSet_self (cache : QuoteCache) (key : String) (e : CacheEntry) :
    mapGet (mapSet cache key e) key = some e := by
  induction cache with
  | nil => simp [mapSet, mapGet]
  | cons kv rest ih =>
    by_cases h : kv.1 = key
    · simp [mapSet, mapGet, h]
    · simp [mapSet, mapGet, h, ih]

/-- Membership is preserved by the descending insertion. -/
theorem mem_insertDescByAmountOut (a q : QuoteResult) (l : List QuoteResult) :
    a ∈ insertDescByAmountOut q l ↔ a = q ∨ a ∈ l := by
  induction l with
  | nil => simp [insertDescByAmountOut]
  | cons x xs ih =>
    simp only [insertDescByAmountOut]
    split
    · simp [List.mem_cons]
    · simp only [List.mem_cons, ih]
      tauto

/-- Membership is preserved by the descending sort. -/
theorem mem_sortDescByAmountOut (a : QuoteResult) (l : List QuoteResult) :
    a ∈ sortDescByAmountOut l ↔ a ∈ l := by
  induction l with
  | nil => simp [sortDescByAmountOut]
  | cons x xs ih =>
    simp only [sortDescByAmountOut, List.foldr_cons] at ih ⊢
    rw [mem_insertDescByAmountOut]
    simp [ih]

/-- Unfolding step of the best-quote fold. -/
theorem pickBestQuote_cons (b c : QuoteResult) (t : List QuoteResult) :
    pickBestQuote b (c :: t) =
      pickBestQuote (if calculateRouteScore b < calculateRouteScore c then c else b) t := rfl

/-- The fold of selectBestRoute picks the first element of maximal score:
the starting list splits around the result, every earlier element scoring
strictly less and every later element scoring at most the result. -/
theorem pickBestQuote_decomp (rest : List QuoteResult) : ∀ b : QuoteResult,
    ∃ pre post, b :: rest = pre ++ pickBestQuote b rest :: post ∧
      (∀ x ∈ pre, calculateRouteScore x < calculateRouteScore (pickBestQuote b rest)) ∧
      (∀ x ∈ post, calculateRouteScore x ≤ calculateRouteScore (pickBestQuote b rest)) := by
  induction rest with
  | nil =>
    intro b
    exact ⟨[], [], rfl, by simp, by simp⟩
  | cons c t ih =>
    intro b
    by_cases h : calculateRouteScore b < calculateRouteScore c
    · rw [pickBestQuote_cons, if_pos h]
      obtain ⟨pre, post, heq, hpre, hpost⟩ := ih c
      cases pre with
      | nil =>
        simp only [List.nil_append] at heq
        obtain ⟨hc, ht⟩ := List.cons.inj heq
        refine ⟨[b], post, ?_, ?_, hpost⟩
        · exact congrArg (fun l => b :: l) heq
        · intro y hy
          simp only [List.mem_singleton] at hy
          subst hy
          exact hc ▸ h
      | cons p pre₂ =>
        obtain ⟨hp, ht⟩ := List.cons.inj heq
        refine ⟨b :: p :: pre₂, post, ?_, ?_, hpost⟩
        · simp only [List.cons_append]
          exact congrArg (fun l => b :: l) heq
        · intro y hy
          simp only [List.mem_cons] at hy
          have hpr : calculateRouteScore p < calculateRouteScore (pickBestQuote c t) :=
            hpre p (by simp)
          rcases hy with hy | hy | hy
          · subst hy
            exact lt_trans (hp ▸ h) hpr
          · subst hy
            exact hpr
          · exact hpre y (by simp [hy])
    · rw [pickBestQuote_cons, if_neg h]
      push_neg at h
      obtain ⟨pre, post, heq, hpre, hpost⟩ := ih b
      cases pre with
      | nil =>
        simp only [List.nil_append] at heq
        obtain ⟨hb, ht⟩ := List.cons.inj heq
        refine ⟨[], c :: t, ?_, by simp, ?_⟩
        · simp only [List.nil_append]
          rw [← hb]
        · intro y hy
          simp only [List.mem_cons] at hy
          rcases hy with hy | hy
          · subst hy
            exact le_trans h (le_of_eq (congrArg calculateRouteScore hb))
          · rw [ht] at hy
            exact hpost y hy
      | cons p pre₂ =>
        obtain ⟨hp, ht⟩ := List.cons.inj heq
        refine ⟨b :: c :: pre₂, post, ?_, ?_, hpost⟩
        · simp only [List.cons_append]
          exact congrArg (fun l => b :: c :: l) ht
        · intro y hy
          simp only [List.mem_cons] at hy
          have hbr : calculateRouteScore b < calculateRouteScore (pickBestQuote b t) := by
            have hpp := hpre p (by simp)
            exact hp ▸ hpp
          rcases hy with hy | hy | hy
          · subst hy
            exact hbr
          · subst hy
            exact lt_of_le_of_lt h hbr
          · exact hpre y (by simp [hy])

/-- A valid parsed direct quote carries exactly one hop, from the queried
tokenIn to the queried tokenOut. -/
theorem parseContractQuoteResultV_hops (result : Option RawVals)
    (tIn tOut : String) (aIn : Int)
    (h : (parseContractQuoteResultV result tIn tOut aIn).isValid = true) :
    ∃ hop, (parseContractQuoteResultV result tIn tOut aIn).route.hops = [hop] ∧
      hop.tokenIn = tIn ∧ hop.tokenOut = tOut := by
  cases result with
  | none => simp [parseContractQuoteResultV, createEmptyQuote] at h
  | some rv => exact ⟨_, rfl, rfl, rfl⟩

/-- An ok result of getContractQuote is a parse of some gateway
response. -/
theorem getContractQuote_ok (g : Gateway) (tIn tOut : String) (aIn : Int)
    (fh : QuoteResult) (h : getContractQuote g tIn tOut aIn = Except.ok fh) :
    ∃ r, g tIn tOut aIn = Except.ok r ∧ fh = parseContractQuoteResultV r tIn tOut aIn := by
  unfold getContractQuote at h
  cases hg : g tIn tOut aIn with
  | error e =>
    rw [hg] at h
    simp at h
  | ok r =>
    rw [hg] at h
    simp at h
    exact ⟨r, rfl, h.symm⟩

/-- Any quote added by one step of the intermediate loop is either already
in the accumulator or a two-hop quote chained from the request's tokenIn
through the intermediate to the request's tokenOut. -/
theorem singleHopStep_sound (g : Gateway) (params : QuoteParams)
    (acc : List QuoteResult) (intermediate : String) (q : QuoteResult)
    (hq : q ∈ singleHopStep g params acc intermediate) :
    q ∈ acc ∨ ∃ h1 h2, q.route.hops = [h1, h2] ∧ h1.tokenIn = params.tokenIn ∧
      h1.tokenOut = h2.tokenIn ∧ h2.tokenOut = params.tokenOut := by
  unfold singleHopStep at hq
  split at hq
  · exact Or.inl hq
  · split at hq
    · exact Or.inl hq
    · rename_i firstHopQuote hfst
      split at hq
      · exact Or.inl hq
      · rename_i hguard1
        split at hq
        · exact Or.inl hq
        · rename_i secondHopQuote hsnd
          split at hq
          · exact Or.inl hq
          · rename_i hguard2
            rw [List.mem_append] at hq
            rcases hq with hq | hq
            · exact Or.inl hq
            · rw [List.mem_singleton] at hq
              subst hq
              right
              push_neg at hguard1 hguard2
              have hv1 : firstHopQuote.isValid = true :=
                Bool.not_eq_false _ ▸ hguard1.1
              have hv2 : secondHopQuote.isValid = true :=
                Bool.not_eq_false _ ▸ hguard2.1
              obtain ⟨r1, hg1, he1⟩ := getContractQuote_ok g _ _ _ _ hfst
              obtain ⟨r2, hg2, he2⟩ := getContractQuote_ok g _ _ _ _ hsnd
              subst he1
              subst he2
              obtain ⟨hop1, hh1, hi1, ho1⟩ :=
                parseContractQuoteResultV_hops r1 params.tokenIn intermediate
                  params.amountIn hv1
              obtain ⟨hop2, hh2, hi2, ho2⟩ :=
                parseContractQuoteResultV_hops r2 intermediate params.tokenOut _ hv2
              refine ⟨hop1, hop2, ?_, hi1, ?_, ho2⟩
              · show (_ ++ _ : List RouteHop) = _
                rw [hh1, hh2]
                rfl
              · rw [ho1, hi2]

/-- Folding the intermediate loop preserves the two-hop-chain property of
every collected quote. -/
theorem foldl_singleHopStep_sound (g : Gateway) (params : QuoteParams) :
    ∀ (l : List String) (acc : List QuoteResult),
      (∀ q ∈ acc, ∃ h1 h2, q.route.hops = [h1, h2] ∧ h1.tokenIn = params.tokenIn ∧
        h1.tokenOut = h2.tokenIn ∧ h2.tokenOut = params.tokenOut) →
      ∀ q ∈ l.foldl (singleHopStep g params) acc,
        ∃ h1 h2, q.route.hops = [h1, h2] ∧ h1.tokenIn = params.tokenIn ∧
          h1.tokenOut = h2.tokenIn ∧ h2.tokenOut = params.tokenOut := by
  intro l
  induction l with
  | nil =>
    intro acc hacc q hq
    exact hacc q hq
  | cons i l ih =>
    intro acc hacc q hq
    rw [List.foldl_cons] at hq
    refine ih (singleHopStep g params acc i) ?_ q hq
    intro p hp
    rcases singleHopStep_sound g params acc i p hp with hmem | hP
    · exact hacc p hmem
    · exact hP

/-- With an unreachable gateway one step of the intermediate loop leaves
the accumulator unchanged. -/
theorem singleHopStep_fail (g : Gateway) (params : QuoteParams)
    (acc : List QuoteResult) (intermediate : String)
    (hfail : ∀ a b c, g a b c = Except.error TransportError.transportFailure) :
    singleHopStep g params acc intermediate = acc := by
  unfold singleHopStep
  split
  · rfl
  · simp [getContractQuote, hfail]

/-- With an unreachable gateway the whole intermediate loop collects
nothing. -/
theorem foldl_singleHopStep_fail (g : Gateway) (params : QuoteParams)
    (hfail : ∀ a b c, g a b c = Except.error TransportError.transportFailure) :
    ∀ (l : List String) (acc : List QuoteResult),
      l.foldl (singleHopStep g params) acc = acc := by
  intro l
  induction l with
  | nil => intro acc; rfl
  | cons i l ih =>
    intro acc
    rw [List.foldl_cons, singleHopStep_fail g params acc i hfail, ih]

/-! Claim theorems. -/

/-- C1: for every pair of valid hop quotes, the combined multi-hop quote
has amountOut of the second hop, summed feeAmount, gasEstimate and
priceImpact (arithmetic sum, not compounding), concatenated route hops
with routeType multi-hop, and the maximum of the two slippage
tolerances. -/
theorem combineHops_multi_hop_quote (params : QuoteParams)
    (firstHop secondHop : QuoteResult) (intermediate : String)
    (_h1 : firstHop.isValid = true) (_h2 : secondHop.isValid = true) :
    (combineHops params firstHop secondHop intermediate).amountOut = secondHop.amountOut ∧
    (combineHops params firstHop secondHop intermediate).feeAmount =
      firstHop.feeAmount + secondHop.feeAmount ∧
    (combineHops params firstHop secondHop intermediate).gasEstimate =
      firstHop.gasEstimate + secondHop.gasEstimate ∧
    (combineHops params firstHop secondHop intermediate).priceImpact =
      firstHop.priceImpact + secondHop.priceImpact ∧
    (combineHops params firstHop secondHop intermediate).route.hops =
      firstHop.route.hops ++ secondHop.route.hops ∧
    (combineHops params firstHop secondHop intermediate).route.routeType =
      RouteType.multiHop ∧
    (combineHops params firstHop secondHop intermediate).slippageTolerance =
      max firstHop.slippageTolerance secondHop.slippageTolerance :=
  ⟨rfl, rfl, rfl, rfl, rfl, rfl, rfl⟩

/-- Witness for C1 at the spec's assembly scenario: hops A -> X (100 in,
90 out, fee 1) and X -> B (90 in, 80 out, fee 1) combine to amountOut 80,
feeAmount 2 and a two-hop route. -/
theorem combineHops_multi_hop_quote_witness :
    demoHopAX.isValid = true ∧ demoHopXB.isValid = true ∧
    (combineHops demoParams demoHopAX demoHopXB "X").amountOut = 80 ∧
    (combineHops demoParams demoHopAX demoHopXB "X").feeAmount = 2 ∧
    (combineHops demoParams demoHopAX demoHopXB "X").route.hops.length = 2 := by
  have h := combineHops_multi_hop_quote demoParams demoHopAX demoHopXB "X"
    (by decide) (by decide)
  refine ⟨by decide, by decide, ?_, ?_, ?_⟩
  · rw [h.1]; decide
  · rw [h.2.1]; decide
  · rw [h.2.2.2.2.1]; decide

/-- C4 fails as stated: minimumOutput is not strictly monotone in the
slippage, because the floor collapses small products; with amountOut 1 the
slippages 1 bp and 2 bps both floor to 0, and with amountOut 0 the result
equals amountOut for positive slippage. -/
theorem calculateMinimumOutput_strict_fails :
    calculateMinimumOutput oneUnitQuote 1 = 0 ∧
    calculateMinimumOutput oneUnitQuote 2 = 0 ∧
    ¬ calculateMinimumOutput oneUnitQuote 2 < calculateMinimumOutput oneUnitQuote 1 ∧
    calculateMinimumOutput createEmptyQuote 5 = createEmptyQuote.amountOut := by
  refine ⟨?_, ?_, ?_, ?_⟩ <;> norm_num [calculateMinimumOutput, oneUnitQuote, createEmptyQuote]

/-- C4 (amended): for a nonnegative amountOut, minimumOutput is weakly
antitone in the slippage, equals amountOut at slippage 0, and never
exceeds amountOut for nonnegative slippage. -/
theorem calculateMinimumOutput_monotone_spec (quote : QuoteResult) (s1 s2 : Int)
    (hq : 0 ≤ quote.amountOut) (h0 : 0 ≤ s1) (h12 : s1 ≤ s2) :
    calculateMinimumOutput quote s2 ≤ calculateMinimumOutput quote s1 ∧
    calculateMinimumOutput quote 0 = quote.amountOut ∧
    calculateMinimumOutput quote s1 ≤ quote.amountOut := by
  have hq2 : (0 : Rat) ≤ (quote.amountOut : Rat) := by exact_mod_cast hq
  refine ⟨?_, ?_, ?_⟩
  · apply Int.floor_mono
    have hs : ((10000 - (s2 : Rat)) / 10000) ≤ ((10000 - (s1 : Rat)) / 10000) := by
      have h12q : (s1 : Rat) ≤ (s2 : Rat) := by exact_mod_cast h12
      have hnum : (10000 - (s2 : Rat)) ≤ (10000 - (s1 : Rat)) := by linarith
      exact div_le_div_of_nonneg_right hnum (by norm_num) |>.trans_eq rfl
    exact mul_le_mul_of_nonneg_left hs hq2
  · show Int.floor ((quote.amountOut : Rat) * ((10000 - ((0 : Int) : Rat)) / 10000)) = _
    norm_num
  · have hfac : ((10000 - (s1 : Rat)) / 10000) ≤ 1 := by
      rw [div_le_one (by norm_num)]
      have h0q : (0 : Rat) ≤ (s1 : Rat) := by exact_mod_cast h0
      linarith
    have hle : (quote.amountOut : Rat) * ((10000 - (s1 : Rat)) / 10000) ≤
        (quote.amountOut : Rat) := by
      calc (quote.amountOut : Rat) * ((10000 - (s1 : Rat)) / 10000)
          ≤ (quote.amountOut : Rat) * 1 := mul_le_mul_of_nonneg_left hfac hq2
        _ = (quote.amountOut : Rat) := mul_one _
    calc calculateMinimumOutput quote s1 ≤ Int.floor ((quote.amountOut : Rat)) :=
          Int.floor_mono hle
      _ = quote.amountOut := Int.floor_intCast _

/-- Witness for C4 (amended) at amountOut 90 (the demo first hop), with
slippages 10 and 20 bps. -/
theorem calculateMinimumOutput_monotone_spec_witness :
    calculateMinimumOutput demoHopAX 20 ≤ calculateMinimumOutput demoHopAX 10 ∧
    calculateMinimumOutput demoHopAX 0 = demoHopAX.amountOut ∧
    calculateMinimumOutput demoHopAX 10 ≤ demoHopAX.amountOut :=
  calculateMinimumOutput_monotone_spec demoHopAX 10 20 (by decide) (by decide) (by decide)

/-- C5 fails as stated: calculateBinPrice performs no domain check and
never raises; at binStep 0 (a non-positive step) with binId 5 it returns
the scaled price 2^64 instead of failing. -/
theorem calculateBinPrice_returns_at_nonpositive_step :
    calculateBinPrice 5 0 = 2 ^ 64 := by
  unfold calculateBinPrice
  norm_num

/-- C2: route selection filters the candidates to the valid quotes; with
none left it returns the canonical empty quote, and otherwise it returns
the first-seen quote of maximal score: the valid list splits around the
result with every earlier quote scoring strictly less and every later
quote scoring at most the result. -/
theorem selectBestRoute_first_max (multiRoute : MultiRouteQuote)
    (valid : List QuoteResult)
    (hvalid : valid = (multiRoute.directRoute.toList ++ multiRoute.singleHopRoutes ++
      multiRoute.multiHopRoutes).filter (fun route => route.isValid)) :
    (valid = [] → selectBestRoute multiRoute = createEmptyQuote) ∧
    (∀ b rest, valid = b :: rest →
      ∃ pre post, valid = pre ++ selectBestRoute multiRoute :: post ∧
        (∀ x ∈ pre, calculateRouteScore x < calculateRouteScore (selectBestRoute multiRoute)) ∧
        (∀ x ∈ post,
          calculateRouteScore x ≤ calculateRouteScore (selectBestRoute multiRoute))) := by
  have key : selectBestRoute multiRoute =
      match (multiRoute.directRoute.toList ++ multiRoute.singleHopRoutes ++
        multiRoute.multiHopRoutes).filter (fun route => route.isValid) with
      | [] => createEmptyQuote
      | b :: rest => pickBestQuote b rest := rfl
  rw [← hvalid] at key
  constructor
  · intro h0
    rw [h0] at key
    exact key
  · intro b rest hbr
    rw [hbr] at key
    rw [key, hbr]
    exact pickBestQuote_decomp rest b

/-- Witness for C2: on the all-invalid candidate set the empty quote is
returned, and on the mixed demo set the valid quotes split around the
selected A -> X quote, which scores highest. -/
theorem selectBestRoute_first_max_witness :
    selectBestRoute demoInvalidMultiRoute = createEmptyQuote ∧
    (∃ pre post, [demoHopAX, demoHopXB] = pre ++ selectBestRoute demoMultiRoute :: post ∧
      (∀ x ∈ pre, calculateRouteScore x < calculateRouteScore (selectBestRoute demoMultiRoute)) ∧
      (∀ x ∈ post,
        calculateRouteScore x ≤ calculateRouteScore (selectBestRoute demoMultiRoute))) := by
  constructor
  · exact (selectBestRoute_first_max demoInvalidMultiRoute [] (by decide)).1 rfl
  · exact (selectBestRoute_first_max demoMultiRoute [demoHopAX, demoHopXB] (by decide)).2
      demoHopAX [demoHopXB] rfl

/-- C7: a cache get returns the stored quote exactly when an entry exists
for the key and is younger than the 10000 ms TTL; a put unconditionally
installs a freshly timestamped entry, and a get after a put returns the
quote exactly while the TTL has not elapsed. -/
theorem quoteCache_get_put_spec (cache : QuoteCache) (key : String)
    (q : QuoteResult) (now now2 : Int) :
    (getCachedQuote cache key now = some q ↔
      ∃ e, mapGet cache key = some e ∧ e.quote = q ∧ now - e.timestamp < CACHE_TTL) ∧
    mapGet (cacheQuote cache key q now) key = some { quote := q, timestamp := now } ∧
    getCachedQuote (cacheQuote cache key q now) key now2 =
      (if now2 - now < CACHE_TTL then some q else none) := by
  refine ⟨?_, mapGet_mapSet_self cache key _, ?_⟩
  · cases h : mapGet cache key with
    | none => simp [getCachedQuote, h]
    | some e =>
      simp only [getCachedQuote, h]
      split_ifs with httl <;> simp [httl]
  · simp [getCachedQuote, cacheQuote, mapGet_mapSet_self]

/-- Witness for C7: a put into the empty cache at time 1000 is readable at
time 5000 and gone at time 11000. -/
theorem quoteCache_get_put_spec_witness :
    mapGet (cacheQuote [] "A-B-100" demoHopAX 1000) "A-B-100" =
      some { quote := demoHopAX, timestamp := 1000 } ∧
    getCachedQuote (cacheQuote [] "A-B-100" demoHopAX 1000) "A-B-100" 5000 =
      some demoHopAX ∧
    getCachedQuote (cacheQuote [] "A-B-100" demoHopAX 1000) "A-B-100" 11000 = none := by
  have h1 := quoteCache_get_put_spec [] "A-B-100" demoHopAX 1000 5000
  have h2 := quoteCache_get_put_spec [] "A-B-100" demoHopAX 1000 11000
  refine ⟨h1.2.1, ?_, ?_⟩
  · rw [h1.2.2]
    norm_num [CACHE_TTL]
  · rw [h2.2.2]
    norm_num [CACHE_TTL]

/-- C8 fails as stated in its malformed-position part: a present but
non-numeric positional value is retained verbatim rather than defaulted to
"0"; with returnValues [["abc"]] the parsed quote carries amountOut "abc"
(and is invalid because parseInt yields NaN), instead of the claimed
default "0".  Parsing still does not raise. -/
theorem parseContractQuoteResult_keeps_malformed :
    (parseContractQuoteResult (some [["abc"]]) "A" "B" "100").amountOut = "abc" ∧
    (parseContractQuoteResult (some [["abc"]]) "A" "B" "100").amountOut ≠ "0" ∧
    (parseContractQuoteResult (some [["abc"]]) "A" "B" "100").isValid = false := by
  refine ⟨rfl, ?_, rfl⟩
  decide

/-- C8 (amended): the parser is total (never raises); an absent or
malformed response yields the canonical empty invalid quote with amounts
"0"; an absent or empty positional value defaults to "0" ("150000", the
preset gas constant, for position 3), and a defaulted amountOut makes the
quote invalid; a present non-empty positional value is retained verbatim,
even when non-numeric. -/
theorem parseContractQuoteResult_spec (rv : List (List String))
    (tIn tOut aIn : String) :
    parseContractQuoteResult none tIn tOut aIn = createEmptyQuoteS ∧
    ((rv.get? 0).bind List.head? = none →
      (parseContractQuoteResult (some rv) tIn tOut aIn).amountOut = "0" ∧
      (parseContractQuoteResult (some rv) tIn tOut aIn).isValid = false) ∧
    ((rv.get? 3).bind List.head? = none →
      (parseContractQuoteResult (some rv) tIn tOut aIn).gasEstimate = "150000") ∧
    (∀ s, (rv.get? 0).bind List.head? = some s → s ≠ "" →
      (parseContractQuoteResult (some rv) tIn tOut aIn).amountOut = s) := by
  have hval : (parseContractQuoteResult (some rv) tIn tOut aIn).isValid =
      match jsParseInt ((parseContractQuoteResult (some rv) tIn tOut aIn).amountOut) with
      | some n => decide (0 < n)
      | none => false := rfl
  refine ⟨rfl, ?_, ?_, ?_⟩
  · intro h
    rw [List.get?_eq_getElem?] at h
    have hao : (parseContractQuoteResult (some rv) tIn tOut aIn).amountOut = "0" := by
      simp [parseContractQuoteResult, h, jsOrDefault]
    refine ⟨hao, ?_⟩
    rw [hval, hao]
    rfl
  · intro h
    rw [List.get?_eq_getElem?] at h
    simp [parseContractQuoteResult, h, jsOrDefault]
  · intro s hs hne
    rw [List.get?_eq_getElem?] at hs
    simp [parseContractQuoteResult, hs, jsOrDefault, hne]

/-- Witness for C8 (amended): an empty returnValues list defaults the
amounts and the gas constant and is invalid; a present value "7" is
retained. -/
theorem parseContractQuoteResult_spec_witness :
    (parseContractQuoteResult (some []) "A" "B" "100").amountOut = "0" ∧
    (parseContractQuoteResult (some []) "A" "B" "100").isValid = false ∧
    (parseContractQuoteResult (some []) "A" "B" "100").gasEstimate = "150000" ∧
    (parseContractQuoteResult (some [["7"]]) "A" "B" "100").amountOut = "7" := by
  have h1 := parseContractQuoteResult_spec [] "A" "B" "100"
  have h2 := parseContractQuoteResult_spec [["7"]] "A" "B" "100"
  exact ⟨(h1.2.1 rfl).1, (h1.2.1 rfl).2, h1.2.2.1 rfl, h2.2.2.2 "7" rfl (by decide)⟩

/-- C5 (amended): for non-positive binStep the function still returns the
value of the price formula rather than raising a DomainError; at binStep 0
the price is 2^64 (the scaled neutral price) for every binId, and a
negative step is likewise accepted (binStep -5000 halves the price per
bin). -/
theorem calculateBinPrice_zero_step_spec :
    (∀ binId : Int, calculateBinPrice binId 0 = 2 ^ 64) ∧
    calculateBinPrice 1 (-5000) = 2 ^ 63 := by
  constructor
  · intro binId
    unfold calculateBinPrice
    norm_num
  · unfold calculateBinPrice
    norm_num

/-- C9: every quote produced by the single-hop route enumerator for a
request is a two-hop chain satisfying the route composition invariant: the
first hop's tokenIn is the request's tokenIn, the first hop's tokenOut is
the second hop's tokenIn, and the second hop's tokenOut is the request's
tokenOut.  (Two hops is the only multi-hop shape the enumerator builds, so
this instantiates the adjacency invariant for every index.) -/
theorem getSingleHopQuotes_route_composition (g : Gateway) (params : QuoteParams)
    (intermediateTokens : List String) (q : QuoteResult)
    (hq : q ∈ getSingleHopQuotes g params intermediateTokens) :
    ∃ h1 h2, q.route.hops = [h1, h2] ∧ h1.tokenIn = params.tokenIn ∧
      h1.tokenOut = h2.tokenIn ∧ h2.tokenOut = params.tokenOut := by
  unfold getSingleHopQuotes at hq
  rw [mem_sortDescByAmountOut] at hq
  exact foldl_singleHopStep_sound g params intermediateTokens [] (by simp) q hq

/-- Witness for C9: the enumerator on the demo gateway with intermediate X
produces the combined A -> X -> B quote, whose hops chain from A through X
to B. -/
theorem getSingleHopQuotes_route_composition_witness :
    ∃ h1 h2, (combineHops demoParams demoHopAX demoHopXB "X").route.hops = [h1, h2] ∧
      h1.tokenIn = demoParams.tokenIn ∧ h1.tokenOut = h2.tokenIn ∧
      h2.tokenOut = demoParams.tokenOut := by
  apply getSingleHopQuotes_route_composition demoGateway demoParams ["X"]
  have h : getSingleHopQuotes demoGateway demoParams ["X"] =
      [combineHops demoParams demoHopAX demoHopXB "X"] := rfl
  rw [h]
  exact List.mem_singleton_self _

/-- C3 fails as stated: with a gateway that raises a transport error on
every call, getBestQuote completes normally with the (cached) invalid
empty quote instead of propagating the failure to its caller — the
transport error is swallowed into an isValid=false quote. -/
theorem getBestQuote_swallows_transport_error :
    getBestQuote failingGateway demoParams 3 50 true ["X"] [] 0 =
      Except.ok (emptyEnhanced, demoFailCache) ∧
    emptyEnhanced.isValid = false :=
  ⟨rfl, rfl⟩

/-- C3 (amended): a transport failure of the gateway inside getBestQuote
is caught per route (direct route and each intermediate); when every call
fails and the cache misses, getBestQuote returns the enhanced empty
invalid quote — and caches it — rather than raising. -/
theorem getBestQuote_transport_error_absorbed (g : Gateway) (params : QuoteParams)
    (maxHops slippageTolerance : Int) (includeGasEstimate : Bool)
    (intermediateTokens : List String) (cache : QuoteCache) (now : Int)
    (hfail : ∀ a b c, g a b c = Except.error TransportError.transportFailure)
    (hmiss : getCachedQuote cache (getCacheKey params) now = none) :
    getBestQuote g params maxHops slippageTolerance includeGasEstimate
        intermediateTokens cache now =
      Except.ok (enhanceQuote createEmptyQuote slippageTolerance includeGasEstimate,
        cacheQuote cache (getCacheKey params)
          (enhanceQuote createEmptyQuote slippageTolerance includeGasEstimate) now) ∧
    (enhanceQuote createEmptyQuote slippageTolerance includeGasEstimate).isValid =
      false := by
  have hsh : getSingleHopQuotes g params intermediateTokens = [] := by
    unfold getSingleHopQuotes
    rw [foldl_singleHopStep_fail g params hfail]
    rfl
  have hmr : getMultiRouteQuotes g params maxHops intermediateTokens =
      Except.ok ⟨none, [], [], createEmptyQuote, []⟩ := by
    unfold getMultiRouteQuotes
    simp [getContractQuote, hfail, hsh]
  refine ⟨?_, rfl⟩
  simp only [getBestQuote, hmiss, hmr]
  rfl

/-- Witness for C3 (amended), at the always-failing gateway, the demo
request, an empty cache and a non-default slippage option. -/
theorem getBestQuote_transport_error_absorbed_witness :
    getBestQuote failingGateway demoParams 3 60 true ["X"] [] 0 =
      Except.ok (enhanceQuote createEmptyQuote 60 true,
        cacheQuote [] (getCacheKey demoParams) (enhanceQuote createEmptyQuote 60 true) 0) ∧
    (enhanceQuote createEmptyQuote 60 true).isValid = false :=
  getBestQuote_transport_error_absorbed failingGateway demoParams 3 60 true ["X"] [] 0
    (fun _ _ _ => rfl) rfl

/-- C10: on a cache miss getBestQuote stores its result — whatever its
validity — in the cache under the request key with the current timestamp,
and any getBestQuote call for the same key within the TTL (with any
gateway and any options) returns that same quote with the cache unchanged,
never consulting the gateway. -/
theorem getBestQuote_caches_and_serves_cached (g g2 : Gateway) (params : QuoteParams)
    (maxHops st : Int) (ig : Bool) (inters : List String)
    (maxHops2 st2 : Int) (ig2 : Bool) (inters2 : List String)
    (cache c1 : QuoteCache) (now now2 : Int) (q : QuoteResult)
    (hmiss : getCachedQuote cache (getCacheKey params) now = none)
    (hrun : getBestQuote g params maxHops st ig inters cache now = Except.ok (q, c1))
    (hfresh : now2 - now < CACHE_TTL) :
    c1 = cacheQuote cache (getCacheKey params) q now ∧
    getBestQuote g2 params maxHops2 st2 ig2 inters2 c1 now2 = Except.ok (q, c1) := by
  simp only [getBestQuote, hmiss] at hrun
  obtain ⟨m, hm⟩ : ∃ m, getMultiRouteQuotes g params maxHops inters = Except.ok m :=
    ⟨_, rfl⟩
  rw [hm] at hrun
  simp only [Except.ok.injEq, Prod.mk.injEq] at hrun
  obtain ⟨hq, hc⟩ := hrun
  have hc1 : c1 = cacheQuote cache (getCacheKey params) q now := by
    rw [← hc, hq]
  refine ⟨hc1, ?_⟩
  have hhit : getCachedQuote c1 (getCacheKey params) now2 = some q := by
    rw [hc1]
    simp [getCachedQuote, cacheQuote, mapGet_mapSet_self, hfresh]
  simp only [getBestQuote, hhit]

/-- Witness for C10: a failed enumeration caches the invalid empty quote
at time 0, and a second call at time 5000 — against the different, working
demo gateway — still returns the cached invalid quote with the cache
unchanged. -/
theorem getBestQuote_caches_and_serves_cached_witness :
    demoFailCache = cacheQuote [] (getCacheKey demoParams) emptyEnhanced 0 ∧
    getBestQuote demoGateway demoParams 3 50 true ["X"] demoFailCache 5000 =
      Except.ok (emptyEnhanced, demoFailCache) :=
  getBestQuote_caches_and_serves_cached failingGateway demoGateway demoParams
    3 50 true ["X"] 3 50 true ["X"] [] demoFailCache 0 5000 emptyEnhanced
    rfl rfl (by decide)


